import Mathlib

/-
Verification of the streaming speech-recognition coordinator in
src/vosk_service.py (endpoints recognize_stream and reset).

The handler is embedded as a pure state-transition function.  Machine
floats appearing in the audio fragments are modelled by an inductive type
distinguishing NaN, the two infinities and exact finite values (the code
only branches on exactly that distinction, lines 203 to 206); int16
quantities are modelled as integers with an explicit wrap to the 16-bit
range where the numpy cast could wrap.  The external engine (vosk) is a
per-request oracle; the per-session lock is recorded through an explicit
event trace (acquire and release events), since the embedding is
sequential.  Response messages are English renderings of the source
messages, carrying the same information.
-/

namespace VoskService

/-- Model of a 32-bit float sample as the service observes it: the code
distinguishes only NaN, positive and negative infinity, and finite values
(np.isnan and np.isinf tests in vosk_service.py lines 203 to 205); finite
values are modelled exactly as rationals. -/
inductive F32 where
  | nan
  | posinf
  | neginf
  | finite (q : ℚ)
deriving DecidableEq

/-- True on NaN and the infinities, mirroring np.isnan(x) or np.isinf(x). -/
def F32.isNonFinite : F32 → Bool
  | .nan => true
  | .posinf => true
  | .neginf => true
  | .finite _ => false

/-- np.nan_to_num with nan=0.0, posinf=1.0, neginf=-1.0 (line 205). -/
def nan_to_num : F32 → F32
  | .nan => .finite 0
  | .posinf => .finite 1
  | .neginf => .finite (-1)
  | .finite q => .finite q

/-- Clamp a rational to the closed interval from -1 to 1. -/
def clip1 (q : ℚ) : ℚ := min 1 (max (-1) q)

/-- np.clip(x, -1.0, 1.0) on one sample (line 206).  NaN propagates through
numpy comparisons; the infinities clamp to the endpoints. -/
def clipF : F32 → F32
  | .nan => .nan
  | .posinf => .finite 1
  | .neginf => .finite (-1)
  | .finite q => .finite (clip1 q)

/-- Truncation toward zero, the rounding mode of astype(np.int16) on a
float value. -/
def truncZ (q : ℚ) : ℤ := if 0 ≤ q then ⌊q⌋ else -⌊-q⌋

/-- Wrap an integer into the signed 16-bit range, the overflow behaviour of
the numpy int16 cast. -/
def wrap16 (n : ℤ) : ℤ := (n + 32768).emod 65536 - 32768

/-- One sample of (float_data * 32767).astype(np.int16) (line 210).  The
argument has been through clip, so the non-finite arms are unreachable and
carry an arbitrary value. -/
def castInt16 : F32 → ℤ
  | .finite q => wrap16 (truncZ (q * 32767))
  | _ => 0

/-- Lines 203 to 210 of vosk_service.py: sanitize non-finite values (only
when at least one is present, mirroring the np.any guard), clip every
sample to the closed interval from -1 to 1, then quantize each sample to a
16-bit integer. -/
def normalizeSamples (xs : List F32) : List ℤ :=
  let ys := if xs.any F32.isNonFinite then xs.map nan_to_num else xs
  (ys.map clipF).map castInt16

/-- Line 232 to 234: if the byte length of the int16 buffer is odd, drop
the trailing byte.  At sample granularity the byte length is twice the
sample count, so the branch is unreachable; it is kept to mirror the
source, with the drop modelled at sample granularity. -/
def oddTrim (s : List ℤ) : List ℤ :=
  if (2 * s.length) % 2 = 1 then s.dropLast else s

/-- Lines 235 to 238: cap the buffer at max_bytes = 32000 bytes, that is
16000 int16 samples. -/
def capBytes (s : List ℤ) : List ℤ :=
  if 2 * s.length > 32000 then s.take 16000 else s

/-- Lines 248 to 250: the in-place declick loop.  The predecessor value is
the possibly already replaced one. -/
def declickGo (prev : ℤ) : List ℤ → List ℤ
  | [] => []
  | x :: rest =>
      let y := if 20000 < (x - prev).natAbs then prev else x
      y :: declickGo y rest

/-- Lines 244 to 246: whether the maximum absolute adjacent difference
exceeds 20000, expressed as an existence over adjacent pairs.  The
differences are integers below 2 to the 17th, exactly representable in the
float32 arithmetic the source uses. -/
def hasBigJump : List ℤ → Bool
  | [] => false
  | [_] => false
  | a :: b :: rest => decide (20000 < (b - a).natAbs) || hasBigJump (b :: rest)

/-- Lines 243 to 251: the declick stage.  The loop runs only when the
buffer has more than one sample and some adjacent pair jumps by more than
20000; otherwise the buffer is returned untouched. -/
def declick (s : List ℤ) : List ℤ :=
  if 1 < s.length then
    if hasBigJump s then
      match s with
      | [] => []
      | x :: rest => x :: declickGo x rest
    else s
  else s

/-- Lines 253 to 259: pad with zero samples up to min_samples = 160 when
the buffer is shorter than that. -/
def padMin (s : List ℤ) : List ℤ :=
  if s.length < 160 then s ++ List.replicate (160 - s.length) 0 else s

/-- Outcome of the validation plus normalization stages of
recognize_audio_stream (lines 177 to 259), before any session state is
consulted. -/
inductive NormResult where
  | emptyInput
  | misaligned
  | emptyFloat
  | tooShort
  | ok (pcm : List ℤ)
deriving DecidableEq

/-- Lines 177 to 259 of recognize_audio_stream: reject an empty body
(line 179), reject a byte length that is not a multiple of 4 (line 186),
reject an empty decoded float array (line 197), quantize, short-circuit a
quantized buffer below 640 bytes (line 225), then apply the odd-byte trim,
the 32000-byte cap, the declick pass and the minimum padding.  The
fragment is given by its raw byte length nbytes together with its decoded
float32 samples; for a well-formed body nbytes is four times the sample
count. -/
def normalize_fragment (nbytes : Nat) (samples : List F32) : NormResult :=
  if nbytes = 0 then .emptyInput
  else if nbytes % 4 ≠ 0 then .misaligned
  else if samples.length = 0 then .emptyFloat
  else
    let q := normalizeSamples samples
    if 2 * q.length < 640 then .tooShort
    else .ok (padMin (declick (capBytes (oddTrim q))))

/-- Association list from session id to engine-handle identifier, modelling
the recognizers dict (line 24).  Handle identifiers are drawn from a
counter in the service state. -/
abbrev RecMap := List (String × Nat)

/-- Dict lookup: recognizers.get(session_id). -/
def mapFind (m : RecMap) (k : String) : Option Nat :=
  match m with
  | [] => none
  | (k2, v) :: rest => if k2 = k then some v else mapFind rest k

/-- Dict assignment: recognizers[session_id] = handle. -/
def mapInsert (m : RecMap) (k : String) (v : Nat) : RecMap :=
  match m with
  | [] => [(k, v)]
  | (k2, v2) :: rest => if k2 = k then (k, v) :: rest else (k2, v2) :: mapInsert rest k v

/-- Dict removal: recognizers.pop(session_id, None) leaves the map without
the key (dict keys are unique, so removing every occurrence is the
faithful reading on all modelled states). -/
def mapErase (m : RecMap) (k : String) : RecMap :=
  match m with
  | [] => []
  | (k2, v2) :: rest => if k2 = k then mapErase rest k else (k2, v2) :: mapErase rest k

/-- setdefault on a keyed collection: add the key if absent.  Models both
session_locks.setdefault (lines 146 and 262) and session_closed.add
(line 153). -/
def addKey (l : List String) (k : String) : List String :=
  if k ∈ l then l else l ++ [k]

/-- Key removal: session_locks.pop(session_id, None) and
session_closed.discard(session_id) leave the collection without the
key. -/
def removeKey (l : List String) (k : String) : List String :=
  match l with
  | [] => []
  | x :: rest => if x = k then removeKey rest k else x :: removeKey rest k

/-- Global mutable state of the service: the loaded-model flag, the
per-session recognizer map, lock map and closed-marker set (lines 22 to
28), the single legacy recognizer rec used by the non-session paths, and a
counter supplying fresh engine-handle identifiers. -/
structure St where
  modelLoaded : Bool
  recognizers : RecMap
  session_locks : List String
  session_closed : List String
  legacyRec : Option Nat
  nextHandle : Nat
deriving DecidableEq

/-- HTTP response, restricted to the shapes the handlers emit: a 200 with
text, optional confidence and a type tag, a 200 with only a message
(reset), or an error status with a message. -/
inductive Resp where
  | ok (text : String) (confidence : Option ℚ) (rtype : String)
  | okMsg (message : String)
  | err (status : Nat) (message : String)
deriving DecidableEq

/-- Observable events of one request: lock acquisition and release on the
session lock, and every call into the external engine. -/
inductive Event where
  | lockAcquire (sid : String)
  | lockRelease (sid : String)
  | engineCreate
  | engineAccept (pcm : List ℤ)
  | engineInterimCall
  | engineResultCall
  | engineFinalCall
deriving DecidableEq

/-- True on the events that touch the external engine. -/
def Event.isEngine : Event → Bool
  | .lockAcquire _ => false
  | .lockRelease _ => false
  | _ => true

/-- Per-request behaviour of the external engine: whether KaldiRecognizer
creation raises, the outcome of AcceptWaveform (an exception or the
utterance-boundary boolean), and the texts and confidence the result
calls would report. -/
structure EngineOracle where
  createFails : Option String
  accept : Except String Bool
  interimText : String
  resultText : String
  resultConf : ℚ
  finalText : String
  finalConf : ℚ

def msgModelNotInit : String := "Vosk model not initialized"
def msgEmptyInput : String := "audio data is empty"
def msgMisaligned : String := "audio data length invalid: must be a multiple of 4"
def msgEmptyFloat : String := "Float32 data is empty"
def msgCreateFail (e : String) : String := "failed to create recognizer: " ++ e
def msgVoskFail (e : String) : String := "Vosk processing failed: " ++ e
def msgResetDone : String := "recognizer has been reset"

/-- Result of one request: the HTTP response, the service state after the
request, and the trace of lock and engine events. -/
structure Outcome where
  resp : Resp
  state : St
  events : List Event
deriving DecidableEq

/-- Lines 286 to 305: feed the normalized buffer to AcceptWaveform under
the session lock.  An exception propagates out of the with block (so the
lock is released) and is answered with a 500 carrying the detail
(lines 306 to 314); otherwise the final or the interim result is fetched
and returned. -/
def feedEngine (st : St) (o : EngineOracle) (sid : String) (pcm : List ℤ)
    (evs : List Event) : Outcome :=
  match o.accept with
  | .error e =>
      ⟨.err 500 (msgVoskFail e), st,
        (evs ++ [Event.engineAccept pcm]) ++ [Event.lockRelease sid]⟩
  | .ok true =>
      ⟨.ok o.resultText (some o.resultConf) "final", st,
        (evs ++ [Event.engineAccept pcm, Event.engineResultCall]) ++ [Event.lockRelease sid]⟩
  | .ok false =>
      ⟨.ok o.interimText none "partial", st,
        (evs ++ [Event.engineAccept pcm, Event.engineInterimCall]) ++ [Event.lockRelease sid]⟩

/-- Lines 149 to 174: the end-of-utterance branch.  Under the session lock
the recognizer is popped, the closed marker is added, the final result (or
an empty final when no recognizer existed) is produced, and the finally
block pops the lock entry and discards the closed marker before the lock
is released. -/
def streamEou (st1 : St) (o : EngineOracle) (sid : String) : Outcome :=
  let cleanup : St :=
    { st1 with
      recognizers := mapErase st1.recognizers sid,
      session_closed := removeKey (addKey st1.session_closed sid) sid,
      session_locks := removeKey st1.session_locks sid }
  match mapFind st1.recognizers sid with
  | none =>
      ⟨.ok "" none "final", cleanup, [Event.lockAcquire sid, Event.lockRelease sid]⟩
  | some _ =>
      ⟨.ok o.finalText (some o.finalConf) "final", cleanup,
        [Event.lockAcquire sid, Event.engineFinalCall, Event.lockRelease sid]⟩

/-- Lines 261 to 305: the audio branch after normalization.  The session
lock is fetched again with setdefault and acquired; a closed session
answers an empty result of type partial without touching the engine;
otherwise the recognizer is fetched or created (a creation failure is a
500) and the buffer is fed. -/
def streamAudio (st1 : St) (o : EngineOracle) (sid : String) (pcm : List ℤ) : Outcome :=
  let st2 : St := { st1 with session_locks := addKey st1.session_locks sid }
  if sid ∈ st2.session_closed then
    ⟨.ok "" none "partial", st2, [Event.lockAcquire sid, Event.lockRelease sid]⟩
  else
    match mapFind st2.recognizers sid with
    | some _ => feedEngine st2 o sid pcm [Event.lockAcquire sid]
    | none =>
        match o.createFails with
        | some e =>
            ⟨.err 500 (msgCreateFail e), st2,
              [Event.lockAcquire sid, Event.engineCreate, Event.lockRelease sid]⟩
        | none =>
            let st3 : St :=
              { st2 with
                recognizers := mapInsert st2.recognizers sid st2.nextHandle,
                nextHandle := st2.nextHandle + 1 }
            feedEngine st3 o sid pcm [Event.lockAcquire sid, Event.engineCreate]

/-- Lines 125 to 324, recognize_audio_stream: a missing model is a 500; the
session lock entry is created with setdefault before anything else
(line 146); the end-of-utterance branch and the audio branch follow.  The
session id and the end-of-utterance flag are taken as already decoded from
the headers; the body is given by its byte length and decoded samples. -/
def recognize_audio_stream (st : St) (o : EngineOracle) (sid : String) (eou : Bool)
    (nbytes : Nat) (samples : List F32) : Outcome :=
  if st.modelLoaded = false then ⟨.err 500 msgModelNotInit, st, []⟩
  else
    let st1 : St := { st with session_locks := addKey st.session_locks sid }
    if eou then streamEou st1 o sid
    else
      match normalize_fragment nbytes samples with
      | .emptyInput => ⟨.err 400 msgEmptyInput, st1, []⟩
      | .misaligned => ⟨.err 400 msgMisaligned, st1, []⟩
      | .emptyFloat => ⟨.err 400 msgEmptyFloat, st1, []⟩
      | .tooShort => ⟨.ok "" none "partial", st1, []⟩
      | .ok pcm => streamAudio st1 o sid pcm

/-- Lines 326 to 347, reset_recognizer: a missing model is a 500;
otherwise the single global legacy recognizer rec is replaced by a fresh
KaldiRecognizer (a creation failure is a 500 and leaves the state
untouched).  Nothing else in the state is read or written. -/
def reset_recognizer (st : St) (o : EngineOracle) : Resp × St :=
  if st.modelLoaded = false then (.err 500 msgModelNotInit, st)
  else
    match o.createFails with
    | some e => (.err 500 e, st)
    | none =>
        (.okMsg msgResetDone,
          { st with legacyRec := some st.nextHandle, nextHandle := st.nextHandle + 1 })

/-! Basic lemmas about the normalizer stages. -/

lemma length_normalizeSamples (xs : List F32) :
    (normalizeSamples xs).length = xs.length := by
  unfold normalizeSamples
  by_cases h : xs.any F32.isNonFinite <;> simp [h]

lemma oddTrim_eq (s : List ℤ) : oddTrim s = s := by
  unfold oddTrim
  simp [Nat.mul_mod_right]

lemma length_capBytes (s : List ℤ) :
    (capBytes s).length = min s.length 16000 := by
  unfold capBytes
  by_cases h : 2 * s.length > 32000 <;> simp [h] <;> omega

lemma length_declickGo (p : ℤ) (l : List ℤ) :
    (declickGo p l).length = l.length := by
  induction l generalizing p with
  | nil => rfl
  | cons x rest ih => simp [declickGo, ih]

lemma length_declick (s : List ℤ) : (declick s).length = s.length := by
  unfold declick
  by_cases h1 : 1 < s.length
  · by_cases h2 : hasBigJump s
    · cases s with
      | nil => simp [h1, h2]
      | cons x rest =>
          have hr : 0 < rest.length := by simpa using h1
          simp [h1, h2, hr, length_declickGo]
    · simp [h1, h2]
  · simp [h1]

lemma padMin_eq_of_ge (s : List ℤ) (h : 160 ≤ s.length) : padMin s = s := by
  unfold padMin
  simp [Nat.not_lt.mpr h]

lemma normalize_fragment_valid (nbytes : Nat) (samples : List F32)
    (h0 : ¬ nbytes = 0) (h4 : nbytes % 4 = 0) (hs : ¬ samples.length = 0) :
    normalize_fragment nbytes samples =
      if 2 * samples.length < 640 then NormResult.tooShort
      else NormResult.ok (padMin (declick (capBytes (oddTrim (normalizeSamples samples))))) := by
  unfold normalize_fragment
  simp [h0, h4, hs, length_normalizeSamples]

/-! Basic lemmas about the registry operations. -/

lemma mapFind_mapErase (m : RecMap) (k : String) :
    mapFind (mapErase m k) k = none := by
  induction m with
  | nil => rfl
  | cons p rest ih =>
      obtain ⟨k2, v⟩ := p
      by_cases h : k2 = k <;> simp [mapErase, mapFind, h, ih]

lemma mapFind_mapInsert (m : RecMap) (k : String) (v : Nat) :
    mapFind (mapInsert m k v) k = some v := by
  induction m with
  | nil => simp [mapInsert, mapFind]
  | cons p rest ih =>
      obtain ⟨k2, v2⟩ := p
      by_cases h : k2 = k <;> simp [mapInsert, mapFind, h, ih]

lemma not_mem_removeKey (l : List String) (k : String) :
    k ∉ removeKey l k := by
  induction l with
  | nil => simp [removeKey]
  | cons x rest ih =>
      by_cases h : x = k <;> simp [removeKey, h, ih]
      exact fun hk => h hk.symm

lemma mem_addKey (l : List String) (k : String) : k ∈ addKey l k := by
  unfold addKey
  by_cases h : k ∈ l <;> simp [h]

lemma addKey_of_mem (l : List String) (k : String) (h : k ∈ l) :
    addKey l k = l := by
  simp [addKey, h]

/-! Declick: the single-pass description from the specification. -/

/-- Spec-side recursion of the declick pass: the later sample of any
adjacent pair differing by more than 20000 is replaced by the (possibly
already replaced) predecessor value. -/
def declickSpecGo (prev : ℤ) : List ℤ → List ℤ
  | [] => []
  | x :: rest =>
      if 20000 < (x - prev).natAbs then prev :: declickSpecGo prev rest
      else x :: declickSpecGo x rest

/-- Spec-side declick: a single left-to-right pass starting from the first
sample, which is never replaced. -/
def declickSpec : List ℤ → List ℤ
  | [] => []
  | x :: rest => x :: declickSpecGo x rest

lemma declickGo_eq_specGo (l : List ℤ) (p : ℤ) :
    declickGo p l = declickSpecGo p l := by
  induction l generalizing p with
  | nil => rfl
  | cons x rest ih =>
      by_cases h : 20000 < (x - p).natAbs <;>
        simp [declickGo, declickSpecGo, h, ih]

lemma hasBigJump_cons_cons (a b : ℤ) (t : List ℤ) :
    hasBigJump (a :: b :: t) =
      (decide (20000 < (b - a).natAbs) || hasBigJump (b :: t)) := rfl

lemma declickGo_of_no_jump (l : List ℤ) (p : ℤ)
    (h : hasBigJump (p :: l) = false) : declickGo p l = l := by
  induction l generalizing p with
  | nil => rfl
  | cons x rest ih =>
      rw [hasBigJump_cons_cons, Bool.or_eq_false_iff] at h
      obtain ⟨h1, h2⟩ := h
      have hx : ¬ 20000 < (x - p).natAbs := by simpa using h1
      simp [declickGo, hx, ih _ h2]

lemma declickSpec_of_no_jump (s : List ℤ) (h : hasBigJump s = false) :
    declickSpec s = s := by
  cases s with
  | nil => rfl
  | cons x rest =>
      simp [declickSpec, ← declickGo_eq_specGo, declickGo_of_no_jump rest x h]

/-- C7.  The declick stage equals the single left-to-right pass in which a
sample differing from its possibly already replaced predecessor by more
than 20000 is replaced by that predecessor, and a buffer without any
adjacent difference above 20000 is left unchanged. -/
theorem declick_single_pass (s : List ℤ) :
    declick s = declickSpec s ∧
      (hasBigJump s = false → declick s = s) := by
  constructor
  · cases s with
    | nil => rfl
    | cons x rest =>
        cases rest with
        | nil => rfl
        | cons y t =>
            by_cases hj : hasBigJump (x :: y :: t)
            · have hlen : 1 < (x :: y :: t).length := by simp
              simp [declick, hlen, hj, declickSpec, declickGo_eq_specGo]
            · have hf : hasBigJump (x :: y :: t) = false := by
                simpa using hj
              have hlen : 1 < (x :: y :: t).length := by simp
              rw [declickSpec_of_no_jump _ hf]
              simp [declick, hlen, hf]
  · intro h
    unfold declick
    by_cases h1 : 1 < s.length
    · simp [h1, h]
    · simp [h1]

/-- Witness for C7 on a concrete buffer with one jump above 20000. -/
theorem declick_single_pass_witness :
    declick [(0 : ℤ), 30000] = declickSpec [(0 : ℤ), 30000] ∧
      (hasBigJump [(0 : ℤ), 30000] = false →
        declick [(0 : ℤ), 30000] = [(0 : ℤ), 30000]) :=
  declick_single_pass [(0 : ℤ), 30000]

/-! Quantization: the per-sample description from the specification. -/

/-- Spec-side per-sample quantization: replace NaN with 0, positive
infinity with 1, negative infinity with -1; clamp to the closed interval
from -1 to 1; multiply by 32767 and truncate to a signed 16-bit
integer. -/
def specQuantizeSample (x : F32) : ℤ :=
  let x1 : ℚ :=
    match x with
    | .nan => 0
    | .posinf => 1
    | .neginf => -1
    | .finite q => q
  wrap16 (truncZ (min 1 (max (-1) x1) * 32767))

/-- C6.  For every float32 sample of a fragment, the normalization stage
maps it exactly as the specification describes: sanitize NaN to 0,
positive infinity to 1, negative infinity to -1, clamp to the closed
interval from -1 to 1, multiply by 32767 and truncate to a signed 16-bit
integer; the conditional sanitize of the source (applied only when some
non-finite value is present) makes no observable difference. -/
theorem quantization_matches_spec (xs : List F32) :
    normalizeSamples xs = xs.map specQuantizeSample := by
  unfold normalizeSamples
  by_cases h : xs.any F32.isNonFinite
  · simp only [h, if_pos]
    rw [List.map_map, List.map_map]
    apply List.map_congr_left
    intro x _
    cases x <;> simp [nan_to_num, clipF, castInt16, specQuantizeSample, clip1]
  · have h2 : xs.any F32.isNonFinite = false := by simpa using h
    have hall := List.any_eq_false.mp h2
    simp only [h2, Bool.false_eq_true, if_false, List.map_map]
    apply List.map_congr_left
    intro x hx
    have hfin : x.isNonFinite = false := Bool.eq_false_iff.mpr (hall x hx)
    cases x with
    | finite q => simp [clipF, castInt16, specQuantizeSample, clip1]
    | nan => simp [F32.isNonFinite] at hfin
    | posinf => simp [F32.isNonFinite] at hfin
    | neginf => simp [F32.isNonFinite] at hfin

/-- C3.  Every valid fragment (non-empty body, byte length a multiple of
4, byte length four times the decoded sample count) that is not
short-circuited as too short normalizes to a PCM buffer whose byte length
is even and lies between 640 and 32000 inclusive. -/
theorem normalized_pcm_length_bounds (nbytes : Nat) (samples : List F32)
    (h0 : ¬ nbytes = 0) (h4 : nbytes % 4 = 0)
    (hlink : nbytes = 4 * samples.length)
    (h640 : ¬ 2 * samples.length < 640) :
    ∃ pcm, normalize_fragment nbytes samples = NormResult.ok pcm ∧
      (2 * pcm.length) % 2 = 0 ∧
      640 ≤ 2 * pcm.length ∧ 2 * pcm.length ≤ 32000 := by
  have hs : ¬ samples.length = 0 := by omega
  have hdl : (declick (capBytes (oddTrim (normalizeSamples samples)))).length
      = min samples.length 16000 := by
    rw [oddTrim_eq, length_declick, length_capBytes, length_normalizeSamples]
  refine ⟨padMin (declick (capBytes (oddTrim (normalizeSamples samples)))), ?_, ?_, ?_, ?_⟩
  · rw [normalize_fragment_valid nbytes samples h0 h4 hs, if_neg h640]
  · omega
  · rw [padMin_eq_of_ge _ (by omega), hdl]; omega
  · rw [padMin_eq_of_ge _ (by omega), hdl]; omega

/-- Witness for C3 on a concrete 320-sample all-zero fragment. -/
theorem normalized_pcm_length_bounds_witness :
    ∃ pcm, normalize_fragment 1280 (List.replicate 320 (F32.finite 0))
        = NormResult.ok pcm ∧
      (2 * pcm.length) % 2 = 0 ∧
      640 ≤ 2 * pcm.length ∧ 2 * pcm.length ≤ 32000 :=
  normalized_pcm_length_bounds 1280 (List.replicate 320 (F32.finite 0))
    (by decide) (by decide) (by rw [List.length_replicate])
    (by rw [List.length_replicate]; decide)

/-- C10.  For every fragment that passes the too-short short-circuit (at
least 640 quantized bytes, hence at least 320 samples), the buffer reaching
the padding check still has at least 320 samples, so the pad-to-160 step is
the identity and the engine never receives zero-padded audio: the
normalizer output is exactly the declicked, capped buffer. -/
theorem padding_branch_unreachable (nbytes : Nat) (samples : List F32)
    (h0 : ¬ nbytes = 0) (h4 : nbytes % 4 = 0)
    (hlink : nbytes = 4 * samples.length)
    (h640 : ¬ 2 * samples.length < 640) :
    320 ≤ (declick (capBytes (oddTrim (normalizeSamples samples)))).length ∧
    padMin (declick (capBytes (oddTrim (normalizeSamples samples))))
      = declick (capBytes (oddTrim (normalizeSamples samples))) ∧
    normalize_fragment nbytes samples
      = NormResult.ok (declick (capBytes (oddTrim (normalizeSamples samples)))) := by
  have hs : ¬ samples.length = 0 := by omega
  have hdl : (declick (capBytes (oddTrim (normalizeSamples samples)))).length
      = min samples.length 16000 := by
    rw [oddTrim_eq, length_declick, length_capBytes, length_normalizeSamples]
  have h320 : 320 ≤ (declick (capBytes (oddTrim (normalizeSamples samples)))).length := by
    omega
  have hpad := padMin_eq_of_ge _ (by omega :
    160 ≤ (declick (capBytes (oddTrim (normalizeSamples samples)))).length)
  refine ⟨h320, hpad, ?_⟩
  rw [normalize_fragment_valid nbytes samples h0 h4 hs, if_neg h640, hpad]

/-- Witness for C10 on a concrete 320-sample all-zero fragment. -/
theorem padding_branch_unreachable_witness :
    320 ≤ (declick (capBytes (oddTrim (normalizeSamples
        (List.replicate 320 (F32.finite 0)))))).length ∧
    padMin (declick (capBytes (oddTrim (normalizeSamples
        (List.replicate 320 (F32.finite 0))))))
      = declick (capBytes (oddTrim (normalizeSamples
        (List.replicate 320 (F32.finite 0))))) ∧
    normalize_fragment 1280 (List.replicate 320 (F32.finite 0))
      = NormResult.ok (declick (capBytes (oddTrim (normalizeSamples
        (List.replicate 320 (F32.finite 0)))))) :=
  padding_branch_unreachable 1280 (List.replicate 320 (F32.finite 0))
    (by decide) (by decide) (by rw [List.length_replicate])
    (by rw [List.length_replicate]; decide)

/-! Concrete fixtures used by witnesses and counterexamples. -/

/-- An oracle for an engine that never fails and reports empty texts. -/
def oPlain : EngineOracle := ⟨none, Except.ok false, "", "", 0, "", 0⟩

/-- An oracle whose AcceptWaveform call raises. -/
def oAcceptFails : EngineOracle := ⟨none, Except.error "boom", "", "", 0, "", 0⟩

/-- A state with the model loaded and an empty registry. -/
def stEmpty : St := ⟨true, [], [], [], none, 0⟩

/-- A state with the model loaded whose closed-marker set contains the
session id s. -/
def stClosed : St := ⟨true, [], [], ["s"], none, 0⟩

/-! Lemmas about the end-of-utterance branch. -/

lemma streamEou_state (st1 : St) (o : EngineOracle) (sid : String) :
    (streamEou st1 o sid).state =
      { st1 with
        recognizers := mapErase st1.recognizers sid,
        session_closed := removeKey (addKey st1.session_closed sid) sid,
        session_locks := removeKey st1.session_locks sid } := by
  unfold streamEou
  cases mapFind st1.recognizers sid <;> rfl

lemma streamEou_resp_of_absent (st1 : St) (o : EngineOracle) (sid : String)
    (h : mapFind st1.recognizers sid = none) :
    (streamEou st1 o sid).resp = Resp.ok "" none "final" := by
  unfold streamEou
  rw [h]

lemma recognize_eou_state (st : St) (o : EngineOracle) (sid : String)
    (nbytes : Nat) (samples : List F32) (hm : st.modelLoaded = true) :
    (recognize_audio_stream st o sid true nbytes samples).state =
      { st with
        recognizers := mapErase st.recognizers sid,
        session_closed := removeKey (addKey st.session_closed sid) sid,
        session_locks := removeKey (addKey st.session_locks sid) sid } := by
  unfold recognize_audio_stream
  simp [hm, streamEou_state]

lemma recognize_eou_resp_of_absent (st : St) (o : EngineOracle) (sid : String)
    (nbytes : Nat) (samples : List F32) (hm : st.modelLoaded = true)
    (h : mapFind st.recognizers sid = none) :
    (recognize_audio_stream st o sid true nbytes samples).resp
      = Resp.ok "" none "final" := by
  unfold recognize_audio_stream
  simp only [hm, Bool.true_eq_false, if_false, if_true]
  exact streamEou_resp_of_absent _ o sid h

/-! Lemmas about the audio branch. -/

lemma recognize_audio_of_valid (st : St) (o : EngineOracle) (sid : String)
    (nbytes : Nat) (samples : List F32) (pcm : List ℤ)
    (hm : st.modelLoaded = true)
    (hn : normalize_fragment nbytes samples = NormResult.ok pcm) :
    recognize_audio_stream st o sid false nbytes samples
      = streamAudio { st with session_locks := addKey st.session_locks sid }
          o sid pcm := by
  unfold recognize_audio_stream
  simp [hm, hn]

lemma streamAudio_existing (st1 : St) (o : EngineOracle) (sid : String)
    (pcm : List ℤ) (h : Nat)
    (hc : sid ∉ st1.session_closed)
    (hfind : mapFind st1.recognizers sid = some h) :
    streamAudio st1 o sid pcm
      = feedEngine { st1 with session_locks := addKey st1.session_locks sid }
          o sid pcm [Event.lockAcquire sid] := by
  unfold streamAudio
  simp [hc, hfind]

lemma streamAudio_fresh (st1 : St) (o : EngineOracle) (sid : String)
    (pcm : List ℤ)
    (hc : sid ∉ st1.session_closed)
    (hfind : mapFind st1.recognizers sid = none)
    (hcr : o.createFails = none) :
    streamAudio st1 o sid pcm
      = feedEngine { st1 with
            session_locks := addKey st1.session_locks sid,
            recognizers := mapInsert st1.recognizers sid st1.nextHandle,
            nextHandle := st1.nextHandle + 1 }
          o sid pcm [Event.lockAcquire sid, Event.engineCreate] := by
  unfold streamAudio
  simp [hc, hfind, hcr]

lemma feedEngine_error (st : St) (o : EngineOracle) (sid : String)
    (pcm : List ℤ) (evs : List Event) (e : String)
    (hacc : o.accept = Except.error e) :
    feedEngine st o sid pcm evs
      = ⟨Resp.err 500 (msgVoskFail e), st,
          (evs ++ [Event.engineAccept pcm]) ++ [Event.lockRelease sid]⟩ := by
  unfold feedEngine
  rw [hacc]

/-! The claims about the session coordinator. -/

/-- C9.  reset_recognizer replaces only the single global legacy
recognizer: for every registry state and every engine behaviour the
per-session recognizer map, the lock map and the closed-marker set are
unchanged by a reset request, so active streaming sessions are
unaffected. -/
theorem reset_preserves_streaming_sessions (st : St) (o : EngineOracle) :
    (reset_recognizer st o).2.recognizers = st.recognizers ∧
    (reset_recognizer st o).2.session_locks = st.session_locks ∧
    (reset_recognizer st o).2.session_closed = st.session_closed := by
  unfold reset_recognizer
  by_cases h : st.modelLoaded = false
  · simp [h]
  · cases hc : o.createFails <;> simp [h, hc]

/-- C5.  A request without the end-of-utterance flag whose body is empty
is answered 400 with the empty-input message, and one whose byte length is
not a multiple of 4 is answered 400 with the misaligned-input message; in
both cases the event trace is empty, so no engine call is made and no
result of type partial is returned. -/
theorem invalid_fragment_rejected_400 (st : St) (o : EngineOracle) (sid : String)
    (nbytes : Nat) (samples : List F32) (hm : st.modelLoaded = true) :
    (nbytes = 0 →
        (recognize_audio_stream st o sid false nbytes samples).resp
          = Resp.err 400 msgEmptyInput ∧
        (recognize_audio_stream st o sid false nbytes samples).events = []) ∧
    (nbytes % 4 ≠ 0 →
        (recognize_audio_stream st o sid false nbytes samples).resp
          = Resp.err 400 msgMisaligned ∧
        (recognize_audio_stream st o sid false nbytes samples).events = []) := by
  constructor
  · intro h0
    unfold recognize_audio_stream
    simp [hm, normalize_fragment, h0]
  · intro h4
    have h0 : ¬ nbytes = 0 := by omega
    unfold recognize_audio_stream
    simp [hm, normalize_fragment, h0, h4]

/-- Witness for C5: a concrete empty body and a concrete 5-byte body. -/
theorem invalid_fragment_rejected_400_witness :
    ((recognize_audio_stream stEmpty oPlain "s" false 0 []).resp
        = Resp.err 400 msgEmptyInput ∧
      (recognize_audio_stream stEmpty oPlain "s" false 0 []).events = []) ∧
    ((recognize_audio_stream stEmpty oPlain "s" false 5 []).resp
        = Resp.err 400 msgMisaligned ∧
      (recognize_audio_stream stEmpty oPlain "s" false 5 []).events = []) :=
  ⟨(invalid_fragment_rejected_400 stEmpty oPlain "s" 0 [] rfl).1 rfl,
   (invalid_fragment_rejected_400 stEmpty oPlain "s" 5 [] rfl).2 (by decide)⟩

/-- C2 counterexample: a validation-failing request for a session id that
has no lock entry yet does change the lock map, because the lock is
created by setdefault (line 146) before validation runs; here the lock map
goes from empty to holding the session id. -/
theorem validation_failure_touches_lock_map :
    stEmpty.session_locks = [] ∧
    (recognize_audio_stream stEmpty oPlain "s" false 0 []).resp
        = Resp.err 400 msgEmptyInput ∧
    (recognize_audio_stream stEmpty oPlain "s" false 0 []).state.session_locks
        = ["s"] := by
  decide

/-- C2 amended.  A validation-failing request (empty or misaligned body)
is rejected before the recognizer map or the closed-marker set is touched,
and before any lock or engine activity; the lock map is unchanged except
that it gains a fresh (never acquired) lock entry for the session id when
none existed, since that entry is created unconditionally at the start of
the request. -/
theorem validation_failure_frame (st : St) (o : EngineOracle) (sid : String)
    (nbytes : Nat) (samples : List F32) (hm : st.modelLoaded = true)
    (hv : nbytes = 0 ∨ nbytes % 4 ≠ 0) :
    (recognize_audio_stream st o sid false nbytes samples).state.recognizers
        = st.recognizers ∧
    (recognize_audio_stream st o sid false nbytes samples).state.session_closed
        = st.session_closed ∧
    (recognize_audio_stream st o sid false nbytes samples).state.session_locks
        = addKey st.session_locks sid ∧
    (sid ∈ st.session_locks →
      (recognize_audio_stream st o sid false nbytes samples).state.session_locks
        = st.session_locks) ∧
    (recognize_audio_stream st o sid false nbytes samples).events = [] ∧
    ∃ m, (recognize_audio_stream st o sid false nbytes samples).resp
        = Resp.err 400 m := by
  have key : (recognize_audio_stream st o sid false nbytes samples)
      = ⟨Resp.err 400 (if nbytes = 0 then msgEmptyInput else msgMisaligned),
         { st with session_locks := addKey st.session_locks sid }, []⟩ := by
    rcases hv with h0 | h4
    · unfold recognize_audio_stream
      simp [hm, normalize_fragment, h0]
    · have h0 : ¬ nbytes = 0 := by omega
      unfold recognize_audio_stream
      simp [hm, normalize_fragment, h0, h4]
  rw [key]
  refine ⟨rfl, rfl, rfl, ?_, rfl, ⟨_, rfl⟩⟩
  intro hmem
  simp [addKey, hmem]

/-- Witness for C2 amended at a concrete empty-body request. -/
theorem validation_failure_frame_witness :
    (recognize_audio_stream stEmpty oPlain "s" false 0 []).state.recognizers
        = stEmpty.recognizers ∧
    (recognize_audio_stream stEmpty oPlain "s" false 0 []).state.session_closed
        = stEmpty.session_closed ∧
    (recognize_audio_stream stEmpty oPlain "s" false 0 []).state.session_locks
        = addKey stEmpty.session_locks "s" ∧
    ("s" ∈ stEmpty.session_locks →
      (recognize_audio_stream stEmpty oPlain "s" false 0 []).state.session_locks
        = stEmpty.session_locks) ∧
    (recognize_audio_stream stEmpty oPlain "s" false 0 []).events = [] ∧
    ∃ m, (recognize_audio_stream stEmpty oPlain "s" false 0 []).resp
        = Resp.err 400 m :=
  validation_failure_frame stEmpty oPlain "s" 0 [] rfl (Or.inl rfl)

/-- C1 counterexample: an empty-body fragment for a session id whose
closed marker is set is rejected with a 400 empty-input error, not
answered with a successful empty result of type partial, because
validation runs before the closed-session check. -/
theorem closed_session_empty_fragment_rejected :
    "s" ∈ stClosed.session_closed ∧
    (recognize_audio_stream stClosed oPlain "s" false 0 []).resp
        = Resp.err 400 msgEmptyInput ∧
    (recognize_audio_stream stClosed oPlain "s" false 0 []).resp
        ≠ Resp.ok "" none "partial" := by
  decide

/-- C1 amended.  Every fragment that passes validation (non-empty body,
byte length a multiple of 4) arriving for a session id whose closed marker
is set is accepted but discarded: the response is a successful empty
result of type partial, the event trace holds no engine event (no handle
is created or fed), and the recognizer map, handle counter and
closed-marker set are unchanged. -/
theorem closed_session_valid_fragment_discarded (st : St) (o : EngineOracle)
    (sid : String) (nbytes : Nat) (samples : List F32)
    (hm : st.modelLoaded = true) (hc : sid ∈ st.session_closed)
    (h0 : ¬ nbytes = 0) (h4 : nbytes % 4 = 0)
    (hlink : nbytes = 4 * samples.length) :
    (recognize_audio_stream st o sid false nbytes samples).resp
        = Resp.ok "" none "partial" ∧
    ((recognize_audio_stream st o sid false nbytes samples).events.all
        fun e => ! e.isEngine) = true ∧
    (recognize_audio_stream st o sid false nbytes samples).state.recognizers
        = st.recognizers ∧
    (recognize_audio_stream st o sid false nbytes samples).state.nextHandle
        = st.nextHandle ∧
    (recognize_audio_stream st o sid false nbytes samples).state.session_closed
        = st.session_closed := by
  have hs : ¬ samples.length = 0 := by omega
  unfold recognize_audio_stream
  rw [normalize_fragment_valid nbytes samples h0 h4 hs]
  by_cases h640 : 2 * samples.length < 640
  · simp [hm, h640]
  · simp only [hm, Bool.true_eq_false, if_false, if_pos, if_neg h640]
    unfold streamAudio
    simp [hc, Event.isEngine]

/-- Witness for C1 amended at a concrete closed session and a concrete
valid 320-sample fragment. -/
theorem closed_session_valid_fragment_discarded_witness :
    (recognize_audio_stream stClosed oPlain "s" false 1280
        (List.replicate 320 (F32.finite 0))).resp
        = Resp.ok "" none "partial" ∧
    ((recognize_audio_stream stClosed oPlain "s" false 1280
        (List.replicate 320 (F32.finite 0))).events.all
        fun e => ! e.isEngine) = true ∧
    (recognize_audio_stream stClosed oPlain "s" false 1280
        (List.replicate 320 (F32.finite 0))).state.recognizers
        = stClosed.recognizers ∧
    (recognize_audio_stream stClosed oPlain "s" false 1280
        (List.replicate 320 (F32.finite 0))).state.nextHandle
        = stClosed.nextHandle ∧
    (recognize_audio_stream stClosed oPlain "s" false 1280
        (List.replicate 320 (F32.finite 0))).state.session_closed
        = stClosed.session_closed :=
  closed_session_valid_fragment_discarded stClosed oPlain "s" 1280
    (List.replicate 320 (F32.finite 0)) rfl (by decide) (by decide) (by decide)
    (by rw [List.length_replicate])

/-- C4.  Closing is idempotent: after a first end-of-utterance request for
a session id, the registry holds no handle for it, and a second
end-of-utterance request immediately after finds none, is answered with a
successful empty final result, and leaves the registry with no recognizer
entry, no lock entry and no closed marker for that id. -/
theorem end_of_utterance_idempotent (st : St) (o1 o2 : EngineOracle)
    (sid : String) (nbytes : Nat) (samples : List F32)
    (hm : st.modelLoaded = true) :
    mapFind (recognize_audio_stream st o1 sid true nbytes samples).state.recognizers
        sid = none ∧
    (recognize_audio_stream
        (recognize_audio_stream st o1 sid true nbytes samples).state
        o2 sid true nbytes samples).resp = Resp.ok "" none "final" ∧
    mapFind (recognize_audio_stream
        (recognize_audio_stream st o1 sid true nbytes samples).state
        o2 sid true nbytes samples).state.recognizers sid = none ∧
    sid ∉ (recognize_audio_stream
        (recognize_audio_stream st o1 sid true nbytes samples).state
        o2 sid true nbytes samples).state.session_locks ∧
    sid ∉ (recognize_audio_stream
        (recognize_audio_stream st o1 sid true nbytes samples).state
        o2 sid true nbytes samples).state.session_closed := by
  have h1 := recognize_eou_state st o1 sid nbytes samples hm
  have hm1 : (recognize_audio_stream st o1 sid true nbytes samples).state.modelLoaded
      = true := by rw [h1]; exact hm
  have hfind1 : mapFind
      (recognize_audio_stream st o1 sid true nbytes samples).state.recognizers sid
      = none := by rw [h1]; exact mapFind_mapErase st.recognizers sid
  have h2 := recognize_eou_state
    (recognize_audio_stream st o1 sid true nbytes samples).state o2 sid nbytes samples hm1
  refine ⟨hfind1, ?_, ?_, ?_, ?_⟩
  · exact recognize_eou_resp_of_absent _ o2 sid nbytes samples hm1 hfind1
  · rw [h2]
    exact mapFind_mapErase _ sid
  · rw [h2]
    exact not_mem_removeKey _ sid
  · rw [h2]
    exact not_mem_removeKey _ sid

/-- Witness for C4 at a concrete state. -/
theorem end_of_utterance_idempotent_witness :
    mapFind (recognize_audio_stream stEmpty oPlain "s" true 0 []).state.recognizers
        "s" = none ∧
    (recognize_audio_stream
        (recognize_audio_stream stEmpty oPlain "s" true 0 []).state
        oPlain "s" true 0 []).resp = Resp.ok "" none "final" ∧
    mapFind (recognize_audio_stream
        (recognize_audio_stream stEmpty oPlain "s" true 0 []).state
        oPlain "s" true 0 []).state.recognizers "s" = none ∧
    "s" ∉ (recognize_audio_stream
        (recognize_audio_stream stEmpty oPlain "s" true 0 []).state
        oPlain "s" true 0 []).state.session_locks ∧
    "s" ∉ (recognize_audio_stream
        (recognize_audio_stream stEmpty oPlain "s" true 0 []).state
        oPlain "s" true 0 []).state.session_closed :=
  end_of_utterance_idempotent stEmpty oPlain oPlain "s" 0 [] rfl

/-- C8.  When AcceptWaveform raises, the request is answered 500 with the
exception detail, the session lock is released (the last event of the
trace is the lock release), and the session keeps a registered engine
handle: the handle that existed before the request is still bound, and a
freshly created one stays bound, so a future fragment can retry with the
same handle. -/
theorem engine_failure_keeps_session (st : St) (o : EngineOracle) (sid : String)
    (nbytes : Nat) (samples : List F32) (e : String)
    (hm : st.modelLoaded = true)
    (h0 : ¬ nbytes = 0) (h4 : nbytes % 4 = 0)
    (hlink : nbytes = 4 * samples.length)
    (h640 : ¬ 2 * samples.length < 640)
    (hc : sid ∉ st.session_closed)
    (hcr : o.createFails = none)
    (hacc : o.accept = Except.error e) :
    (recognize_audio_stream st o sid false nbytes samples).resp
        = Resp.err 500 (msgVoskFail e) ∧
    (mapFind (recognize_audio_stream st o sid false nbytes samples).state.recognizers
        sid).isSome = true ∧
    (∀ h, mapFind st.recognizers sid = some h →
      mapFind (recognize_audio_stream st o sid false nbytes samples).state.recognizers
        sid = some h) ∧
    (recognize_audio_stream st o sid false nbytes samples).events.getLast?
        = some (Event.lockRelease sid) := by
  have hs : ¬ samples.length = 0 := by omega
  have hn : normalize_fragment nbytes samples
      = NormResult.ok (padMin (declick (capBytes (oddTrim (normalizeSamples samples))))) := by
    rw [normalize_fragment_valid nbytes samples h0 h4 hs, if_neg h640]
  rw [recognize_audio_of_valid st o sid nbytes samples _ hm hn]
  cases hfind : mapFind st.recognizers sid with
  | some h =>
      rw [streamAudio_existing
          { st with session_locks := addKey st.session_locks sid } o sid _ h hc hfind,
        feedEngine_error _ o sid _ _ e hacc]
      refine ⟨rfl, ?_, ?_, List.getLast?_concat _⟩
      · show (mapFind st.recognizers sid).isSome = true
        rw [hfind]; rfl
      · intro h2 hh
        show mapFind st.recognizers sid = some h2
        exact hfind.trans hh
  | none =>
      rw [streamAudio_fresh
          { st with session_locks := addKey st.session_locks sid } o sid _ hc hfind hcr,
        feedEngine_error _ o sid _ _ e hacc]
      refine ⟨rfl, ?_, ?_, List.getLast?_concat _⟩
      · show (mapFind (mapInsert st.recognizers sid st.nextHandle) sid).isSome = true
        rw [mapFind_mapInsert]; rfl
      · intro h2 hh
        exact absurd hh (by simp)

/-- Witness for C8 at a concrete fresh session whose engine raises on
AcceptWaveform. -/
theorem engine_failure_keeps_session_witness :
    (recognize_audio_stream stEmpty oAcceptFails "s" false 1280
        (List.replicate 320 (F32.finite 0))).resp
        = Resp.err 500 (msgVoskFail "boom") ∧
    (mapFind (recognize_audio_stream stEmpty oAcceptFails "s" false 1280
        (List.replicate 320 (F32.finite 0))).state.recognizers "s").isSome = true ∧
    (∀ h, mapFind stEmpty.recognizers "s" = some h →
      mapFind (recognize_audio_stream stEmpty oAcceptFails "s" false 1280
        (List.replicate 320 (F32.finite 0))).state.recognizers "s" = some h) ∧
    (recognize_audio_stream stEmpty oAcceptFails "s" false 1280
        (List.replicate 320 (F32.finite 0))).events.getLast?
        = some (Event.lockRelease "s") :=
  engine_failure_keeps_session stEmpty oAcceptFails "s" 1280
    (List.replicate 320 (F32.finite 0)) "boom" rfl (by decide) (by decide)
    (by rw [List.length_replicate]) (by rw [List.length_replicate]; decide)
    (by decide) rfl rfl

end VoskService
